import Mathlib

/-!
Verification of the query-filter helper classes in
`netbox/utilities/filters.py`.

The filters operate on Django querysets.  We model a queryset as the list
of rows it would evaluate to; `Queryset.filter` narrows it with a boolean
predicate and returns a new queryset (Django querysets are never mutated
in place: every operation returns a fresh queryset object, which the pure
embedding reflects by construction).  Python strings are modelled as Lean
strings, with `str.lower` and `str.split('.')` re-implemented over the
character list so that they compute.
-/

/-- A Django queryset, modelled by the list of rows it evaluates to.
The row type `α` is abstract; each filter only needs an accessor for the
column it filters on. -/
structure Queryset (α : Type) where
  rows : List α
deriving DecidableEq, Repr

/-- Model of `qs.filter(...)`: narrow a queryset, returning a new one. -/
def Queryset.filter (qs : Queryset α) (p : α → Bool) : Queryset α :=
  Queryset.mk (qs.rows.filter p)

/-- Model of `qs.none()`: the empty queryset. -/
def Queryset.none (_qs : Queryset α) : Queryset α :=
  Queryset.mk []

/-- Model of `qs.distinct()`: drop duplicate rows (keeping first occurrences). -/
def Queryset.distinct [DecidableEq α] (qs : Queryset α) : Queryset α :=
  Queryset.mk qs.rows.dedup

/-- Python `str.lower()`: lowercase every character. -/
def pyLower (s : String) : String :=
  String.mk (s.data.map Char.toLower)

/-- Split a character list on a separator character, Python style:
the empty list yields one empty group. -/
def splitChars (sep : Char) : List Char → List (List Char)
  | [] => [[]]
  | c :: cs =>
    match splitChars sep cs with
    | [] => [[]]
    | g :: gs => if c = sep then [] :: g :: gs else (c :: g) :: gs

/-- Python `str.split('.')`. -/
def pySplitDot (s : String) : List String :=
  (splitChars '.' s.data).map String.mk

/-- The content-type column of a row reached through the generic relation:
`<field>__app_label` and `<field>__model`. -/
structure ContentTypeRef where
  app_label : String
  model : String
deriving DecidableEq, Repr

/-- Embedding of `ContentTypeFilter.filter` from `netbox/utilities/filters.py`:

```python
def filter(self, qs, value):
    if value in EMPTY_VALUES:
        return qs
    try:
        app_label, model = value.lower().split('.')
    except ValueError:
        return qs.none()
    return qs.filter(...field__app_label=app_label, ...field__model=model)
```

For a string input the only member of `EMPTY_VALUES` that can match is
the empty string.  The two-name unpacking raises `ValueError` exactly
when the split does not produce two parts, which the two-element match
arm mirrors.  `ct` is the accessor for the generic-relation column named
by `self.field_name`. -/
def ContentTypeFilter.filter (ct : α → ContentTypeRef) (qs : Queryset α)
    (value : String) : Queryset α :=
  if value = "" then qs
  else
    match pySplitDot (pyLower value) with
    | [app_label, model] =>
        qs.filter (fun r => (ct r).app_label == app_label && (ct r).model == model)
    | _ => qs.none

/-- A Django `ValidationError`, carrying its message. -/
structure ValidationError where
  message : String
deriving DecidableEq, Repr

/-- Behaviour of a single-value Django form field class `F`, as used by
`multivalue_field_factory(F)`: per-value coercion (`to_python`, which may
raise `ValidationError`), per-value validation (`validate`), and the
field's validator chain (`run_validators`).  A fresh instance of the
field class has no per-instance state beyond this behaviour, so the
`field = field_class()` in the source is the same function here. -/
structure FormField (β : Type) where
  to_python : String → Except ValidationError β
  validate : β → Except ValidationError Unit
  run_validators : β → Except ValidationError Unit

/-- Exception-propagating list traversal: the Python list comprehension
`[f v for v in vs]`, where the first raised error aborts the whole
expression. -/
def mapExcept (f : String → Except ValidationError β) :
    List String → Except ValidationError (List β)
  | [] => Except.ok []
  | v :: vs => do
    let b ← f v
    let bs ← mapExcept f vs
    pure (b :: bs)

/-- Embedding of `NewField.to_python` from `multivalue_field_factory`:

```python
def to_python(self, value):
    if not value:
        return []
    field = field_class()
    return [field.to_python(v) for v in value if v]
```

The raw input is `none` (Python `None`, missing parameter) or a list of
raw strings; both falsy inputs (`None` and `[]`) yield the empty list,
and the comprehension keeps only truthy (non-empty) strings. -/
def MultiValue.to_python (F : FormField β) (value : Option (List String)) :
    Except ValidationError (List β) :=
  match value with
  | Option.none => Except.ok []
  | Option.some vs =>
    if vs.isEmpty then Except.ok []
    else mapExcept F.to_python (vs.filter (fun v => v != ""))

/-- Embedding of `NewField.validate`: `for v in value: super().validate(v)`,
aborting at the first per-value validation error. -/
def MultiValue.validate (F : FormField β) :
    List β → Except ValidationError Unit
  | [] => Except.ok ()
  | v :: vs => do
    F.validate v
    MultiValue.validate F vs

/-- Embedding of `NewField.run_validators`:
`for v in value: super().run_validators(v)`. -/
def MultiValue.run_validators (F : FormField β) :
    List β → Except ValidationError Unit
  | [] => Except.ok ()
  | v :: vs => do
    F.run_validators v
    MultiValue.run_validators F vs

/-- Modelled from the spec: Django's `Field.clean` (external to this
repository) sequences coercion and the two validation passes —
`value = self.to_python(value); self.validate(value);
self.run_validators(value); return value` — so that a validation error
on any entry fails the whole parameter. -/
def MultiValue.clean (F : FormField β) (value : Option (List String)) :
    Except ValidationError (List β) := do
  let coerced ← MultiValue.to_python F value
  MultiValue.validate F coerced
  MultiValue.run_validators F coerced
  pure coerced

/-- Modelled from the spec: `django_filters.CharFilter.filter` (external
to this repository) "delegates to standard equality filtering" — an
empty value is a pass-through, distinct is applied when configured, and
otherwise the rows whose column equals the value are kept.  The column
is nullable, hence `Option String`. -/
def CharFilter.filter [DecidableEq α] (field : α → Option String)
    (distinct : Bool) (qs : Queryset α) (value : String) : Queryset α :=
  if value = "" then qs
  else
    let qs1 := if distinct then qs.distinct else qs
    qs1.filter (fun r => field r == Option.some value)

/-- Embedding of `NullableCharFieldFilter.filter`:

```python
def filter(self, qs, value):
    if value != settings.FILTERS_NULL_CHOICE_VALUE:
        return super().filter(qs, value)
    qs = self.get_method(qs)(...field__isnull=True)
    return qs.distinct() if self.distinct else qs
```

`sentinel` is the configured `settings.FILTERS_NULL_CHOICE_VALUE` (a
process-wide setting, not part of this repository).  `get_method`
resolves to `qs.filter` in the default, non-excluding configuration
modelled here. -/
def NullableCharFieldFilter.filter [DecidableEq α] (sentinel : String)
    (field : α → Option String) (distinct : Bool) (qs : Queryset α)
    (value : String) : Queryset α :=
  if value ≠ sentinel then CharFilter.filter field distinct qs value
  else
    let qs2 := qs.filter (fun r => field r == Option.none)
    if distinct then qs2.distinct else qs2

/-- A dynamically typed Python value as the filters below receive it:
`None`, a boolean, an integer, a string, or a list. -/
inductive PyValue where
  | none : PyValue
  | bool : Bool → PyValue
  | int : Int → PyValue
  | str : String → PyValue
  | list : List PyValue → PyValue

/-- Python truthiness for `PyValue`: `None`, `False`, `0`, `''` and `[]`
are falsy, everything else is truthy. -/
def PyValue.truthy : PyValue → Bool
  | PyValue.none => false
  | PyValue.bool b => b
  | PyValue.int n => n != 0
  | PyValue.str s => s != ""
  | PyValue.list vs => !vs.isEmpty

/-- Embedding of `NumericArrayFilter.filter`:

```python
def filter(self, qs, value):
    if value:
        value = [value]
    return super().filter(qs, value)
```

The delegated `NumberFilter.filter` is external framework code, so it is
kept abstract as `delegate`; what the source decides is only which value
the delegate receives: the singleton-wrapped value when the input is
truthy, the unchanged input otherwise. -/
def NumericArrayFilter.filter (delegate : Queryset α → PyValue → Queryset α)
    (qs : Queryset α) (value : PyValue) : Queryset α :=
  if value.truthy then delegate qs (PyValue.list [value])
  else delegate qs value

/-- Embedding of `MultiValueArrayFilter.get_filter_predicate`:

```python
def get_filter_predicate(self, v):
    if v is None:
        return \x7bself.field_name: None\x7d
    return super().get_filter_predicate(v)
```

The predicate is the lookup key paired with the comparison operand.  The
`super()` branch is modelled from the spec: the external
`MultipleChoiceFilter.get_filter_predicate` builds the key from the
field name and the configured lookup expression. -/
def MultiValueArrayFilter.get_filter_predicate (field_name lookup_expr : String)
    (v : PyValue) : String × PyValue :=
  match v with
  | PyValue.none => (field_name, PyValue.none)
  | v => (field_name ++ "__" ++ lookup_expr, v)

/-- Embedding of `MultiValueMACAddressFilter.filter`:

```python
def filter(self, qs, value):
    try:
        return super().filter(qs, value)
    except ValidationError:
        return qs.none()
```

The delegated `MultipleChoiceFilter.filter` is external framework code:
it is kept abstract as a fallible delegate which may raise
`ValidationError` (for an invalid MAC-address-like string, per the
spec). -/
def MultiValueMACAddressFilter.filter
    (delegate : Queryset α → List String → Except ValidationError (Queryset α))
    (qs : Queryset α) (value : List String) : Queryset α :=
  match delegate qs value with
  | Except.ok r => r
  | Except.error _ => qs.none

/-- Modelled from the spec: `django_filters.MultipleChoiceFilter.filter`
(external to this repository), the `filter` inherited unchanged by the
eight plain multi-value classes (`MultiValueCharFilter`,
`MultiValueDateFilter`, `MultiValueDateTimeFilter`,
`MultiValueDecimalFilter`, `MultiValueNumberFilter`,
`MultiValueTimeFilter`, `MultiValueWWNFilter`, `MultiValueArrayFilter`) —
"supplying repeated query values yields the OR of per-value equality
matches", and an empty input is a pass-through (no filtering applied).
`f` is the accessor for the filtered column, whose coerced value type
`γ` varies with the field class. -/
def MultipleChoiceFilter.filter [DecidableEq γ] (f : α → γ)
    (qs : Queryset α) (value : List γ) : Queryset α :=
  if value.isEmpty then qs
  else qs.filter (fun r => value.contains (f r))

/-- Modelled from the spec: a node of the external hierarchical-tree
collaborator ("a hierarchical-model collaborator exposing get all
descendants including self").  A node carries an identifier and its
child subtrees. -/
inductive TreeNode where
  | node : Nat → List TreeNode → TreeNode

/-- Children accessor of a tree node. -/
def TreeNode.children : TreeNode → List TreeNode
  | TreeNode.node _ cs => cs

mutual

/-- Modelled from the spec: `node.get_descendants(include_self=True)` of
the external tree collaborator — the node itself followed by all of its
transitive descendants. -/
def TreeNode.get_descendants : TreeNode → List TreeNode
  | TreeNode.node i cs => TreeNode.node i cs :: TreeNode.descendantsOfAll cs

/-- Descendants (selves included) of every node of a list, concatenated. -/
def TreeNode.descendantsOfAll : List TreeNode → List TreeNode
  | [] => []
  | t :: ts => TreeNode.get_descendants t ++ TreeNode.descendantsOfAll ts

end

/-- Transitive-reflexive descendant relation on tree nodes: `u` is `t`
itself or a node somewhere below one of `t`'s children. -/
inductive IsDescendant : TreeNode → TreeNode → Prop where
  | refl (t : TreeNode) : IsDescendant t t
  | step {t c u : TreeNode} : c ∈ t.children → IsDescendant c u →
      IsDescendant t u

/-- An entry of the raw value list handed to
`TreeNodeMultipleChoiceFilter.filter`: either a model instance (a tree
node) or a string. -/
inductive TreeEntry where
  | node : TreeNode → TreeEntry
  | str : String → TreeEntry

/-- An entry of the value list after expansion: either the queryset of
descendants a node was replaced with, or a string passed through. -/
inductive ExpandedEntry where
  | nodes : List TreeNode → ExpandedEntry
  | str : String → ExpandedEntry

/-- The per-entry expansion inside `TreeNodeMultipleChoiceFilter.filter`:
`node.get_descendants(include_self=True) if not isinstance(node, str)
else node`. -/
def TreeNodeMultipleChoiceFilter.expandEntry : TreeEntry → ExpandedEntry
  | TreeEntry.node t => ExpandedEntry.nodes t.get_descendants
  | TreeEntry.str s => ExpandedEntry.str s

/-- Embedding of `TreeNodeMultipleChoiceFilter.filter`:

```python
def filter(self, qs, value):
    value = [node.get_descendants(include_self=True)
             if not isinstance(node, str) else node for node in value]
    return super().filter(qs, value)
```

The delegated `ModelMultipleChoiceFilter.filter` is external framework
code, kept abstract as `delegate`; the source decides only the expanded
value list the delegate receives. -/
def TreeNodeMultipleChoiceFilter.filter
    (delegate : Queryset α → List ExpandedEntry → Queryset α)
    (qs : Queryset α) (value : List TreeEntry) : Queryset α :=
  delegate qs (value.map TreeNodeMultipleChoiceFilter.expandEntry)

/-- Embedding of `TreeNodeMultipleChoiceFilter.get_filter_predicate`:

```python
def get_filter_predicate(self, v):
    if v is None:
        return ...field__isnull: True
    return super().get_filter_predicate(v)
```

A `None` entry becomes an `isnull` predicate; otherwise the external
`super()` applies the configured lookup expression (modelled from the
spec), here with the node's identifier as operand. -/
def TreeNodeMultipleChoiceFilter.get_filter_predicate
    (field_name lookup_expr : String) (v : Option TreeNode) :
    String × PyValue :=
  match v with
  | Option.none => (field_name ++ "__isnull", PyValue.bool true)
  | Option.some (TreeNode.node i _) =>
      (field_name ++ "__" ++ lookup_expr, PyValue.int (Int.ofNat i))

/-! ### Helper lemmas -/

theorem mapExcept_error_of_mem (f : String → Except ValidationError β)
    {x : String} : ∀ {xs : List String}, x ∈ xs →
    (∃ e, f x = Except.error e) → ∃ e2, mapExcept f xs = Except.error e2 := by
  intro xs hx he
  induction xs with
  | nil => cases hx
  | cons y ys ih =>
    rcases he with ⟨e, he⟩
    cases hy : f y with
    | error e3 => exact ⟨e3, by simp [mapExcept, hy, Bind.bind, Except.bind]⟩
    | ok b =>
      have hxy : x ∈ ys := by
        rcases List.mem_cons.mp hx with h | h
        · subst h; rw [hy] at he; cases he
        · exact h
      rcases ih hxy with ⟨e2, h2⟩
      exact ⟨e2, by simp [mapExcept, hy, Bind.bind, Except.bind, h2]⟩

theorem multiValue_validate_error_of_mem (F : FormField β) {b : β} :
    ∀ {bs : List β}, b ∈ bs → (∃ e, F.validate b = Except.error e) →
    ∃ e2, MultiValue.validate F bs = Except.error e2 := by
  intro bs hb he
  induction bs with
  | nil => cases hb
  | cons c cs ih =>
    cases hc : F.validate c with
    | error e3 =>
      exact ⟨e3, by simp [MultiValue.validate, hc, Bind.bind, Except.bind]⟩
    | ok u =>
      have hbc : b ∈ cs := by
        rcases List.mem_cons.mp hb with h | h
        · subst h; rcases he with ⟨e, he⟩; rw [hc] at he; cases he
        · exact h
      rcases ih hbc with ⟨e2, h2⟩
      exact ⟨e2, by simp [MultiValue.validate, hc, Bind.bind, Except.bind, h2]⟩

theorem multiValue_to_python_eq_filtered (F : FormField β) (vs : List String) :
    MultiValue.to_python F (Option.some vs)
      = mapExcept F.to_python (vs.filter (fun v => v != "")) := by
  cases vs with
  | nil => simp [MultiValue.to_python, mapExcept]
  | cons v vs => simp [MultiValue.to_python, List.isEmpty]

theorem descendantsOfAll_mem (u : TreeNode) : ∀ (ts : List TreeNode),
    u ∈ TreeNode.descendantsOfAll ts ↔ ∃ t ∈ ts, u ∈ t.get_descendants := by
  intro ts
  induction ts with
  | nil => simp [TreeNode.descendantsOfAll]
  | cons t ts ih => simp [TreeNode.descendantsOfAll, ih, List.mem_append]

theorem sizeOf_lt_of_mem_children {c : TreeNode} {i : Nat}
    {cs : List TreeNode} (h : c ∈ cs) : sizeOf c < sizeOf (TreeNode.node i cs) := by
  have h1 := List.sizeOf_lt_of_mem h
  simp only [TreeNode.node.sizeOf_spec]
  omega

theorem mem_get_descendants_aux (n : Nat) : ∀ (t : TreeNode), sizeOf t ≤ n →
    ∀ (u : TreeNode), u ∈ t.get_descendants ↔ IsDescendant t u := by
  induction n with
  | zero =>
    intro t h
    cases t with
    | node i cs => simp [TreeNode.node.sizeOf_spec] at h
  | succ n ih =>
    intro t hle u
    cases t with
    | node i cs =>
      constructor
      · intro hu
        simp only [TreeNode.get_descendants, List.mem_cons] at hu
        rcases hu with h | h
        · subst h; exact IsDescendant.refl _
        · rcases (descendantsOfAll_mem u cs).mp h with ⟨c, hc, hcu⟩
          have hsz : sizeOf c ≤ n := by
            have := sizeOf_lt_of_mem_children (i := i) hc
            omega
          exact IsDescendant.step (t := TreeNode.node i cs) hc
            ((ih c hsz u).mp hcu)
      · intro hd
        cases hd with
        | refl => simp [TreeNode.get_descendants]
        | step hc hcu =>
          rename_i c
          simp only [TreeNode.children] at hc
          have hsz : sizeOf c ≤ n := by
            have := sizeOf_lt_of_mem_children (i := i) hc
            omega
          have hcu2 : u ∈ c.get_descendants := (ih c hsz u).mpr hcu
          simp only [TreeNode.get_descendants, List.mem_cons]
          exact Or.inr ((descendantsOfAll_mem u cs).mpr ⟨c, hc, hcu2⟩)

theorem mem_get_descendants (t u : TreeNode) :
    u ∈ t.get_descendants ↔ IsDescendant t u :=
  mem_get_descendants_aux (sizeOf t) t (Nat.le_refl _) u

/-! ### Claim theorems -/

/-- C1: `ContentTypeFilter.filter` with value `"dcim.site"` narrows the
queryset to exactly the rows whose generic relation has app_label
`"dcim"` and model `"site"`; with the dot-free value `"invalid"` it
returns the empty queryset; with the empty value it returns the queryset
unfiltered. -/
theorem contentTypeFilter_dcim_site_invalid_empty (ct : α → ContentTypeRef)
    (qs : Queryset α) :
    (∀ r, r ∈ (ContentTypeFilter.filter ct qs "dcim.site").rows ↔
      r ∈ qs.rows ∧ (ct r).app_label = "dcim" ∧ (ct r).model = "site")
    ∧ (ContentTypeFilter.filter ct qs "invalid").rows = []
    ∧ ContentTypeFilter.filter ct qs "" = qs := by
  refine ⟨?_, rfl, rfl⟩
  intro r
  have h : ContentTypeFilter.filter ct qs "dcim.site"
      = qs.filter (fun r => (ct r).app_label == "dcim" && (ct r).model == "site") := rfl
  rw [h]
  simp [Queryset.filter, List.mem_filter, and_assoc]

/-- Lowercasing congruence for `ContentTypeFilter.filter`: two non-empty
values with the same lowercase form filter identically. -/
theorem contentTypeFilter_lower_congr (ct : α → ContentTypeRef)
    (qs : Queryset α) (v w : String) (hv : v ≠ "") (hw : w ≠ "")
    (h : pyLower v = pyLower w) :
    ContentTypeFilter.filter ct qs v = ContentTypeFilter.filter ct qs w := by
  unfold ContentTypeFilter.filter
  rw [if_neg hv, if_neg hw, h]

/-- C8: `ContentTypeFilter.filter` lowercases the input before splitting
on the dot, so matching on app_label and model is case-insensitive:
filtering with `"DCIM.Site"` yields the same result as filtering with
`"dcim.site"`. -/
theorem contentTypeFilter_case_insensitive (ct : α → ContentTypeRef)
    (qs : Queryset α) :
    ContentTypeFilter.filter ct qs "DCIM.Site"
      = ContentTypeFilter.filter ct qs "dcim.site" :=
  contentTypeFilter_lower_congr ct qs "DCIM.Site" "dcim.site"
    (by decide) (by decide) (by decide)

/-- C3: `NullableCharFieldFilter.filter` applied to the configured null
sentinel returns exactly the rows whose field is null (an isnull
predicate); any other value delegates to the standard `CharFilter`
equality filtering. -/
theorem nullableCharFieldFilter_spec [DecidableEq α] (sentinel : String)
    (field : α → Option String) (distinct : Bool) (qs : Queryset α)
    (v : String) :
    (v = sentinel → ∀ r,
      r ∈ (NullableCharFieldFilter.filter sentinel field distinct qs v).rows ↔
        r ∈ qs.rows ∧ field r = Option.none)
    ∧ (v ≠ sentinel →
      NullableCharFieldFilter.filter sentinel field distinct qs v
        = CharFilter.filter field distinct qs v) := by
  constructor
  · intro hv r
    unfold NullableCharFieldFilter.filter
    rw [if_neg (by simp [hv])]
    cases distinct <;>
      simp [Queryset.distinct, Queryset.filter, List.mem_dedup, List.mem_filter]
  · intro hv
    unfold NullableCharFieldFilter.filter
    rw [if_pos hv]

/-- Witness for C3: over rows `0, 1` of type `Nat` with field null
exactly at `0`, the sentinel `"null"` selects row `0`, and a non-sentinel
value delegates to `CharFilter.filter`. -/
theorem nullableCharFieldFilter_spec_witness :
    ((0 : Nat) ∈ (NullableCharFieldFilter.filter "null"
        (fun n => if n = 0 then Option.none else Option.some "x") false
        (Queryset.mk [0, 1]) "null").rows ↔
      (0 : Nat) ∈ (Queryset.mk [0, 1]).rows ∧
        (if (0 : Nat) = 0 then Option.none else Option.some "x") = Option.none)
    ∧ NullableCharFieldFilter.filter "null"
        (fun n : Nat => if n = 0 then Option.none else Option.some "x") false
        (Queryset.mk [0, 1]) "abc"
      = CharFilter.filter
        (fun n : Nat => if n = 0 then Option.none else Option.some "x") false
        (Queryset.mk [0, 1]) "abc" :=
  ⟨(nullableCharFieldFilter_spec "null" _ false _ "null").1 rfl 0,
   (nullableCharFieldFilter_spec "null" _ false _ "abc").2 (by decide)⟩

/-- C7: no filter class of this module mutates the input queryset — every
embedding is a pure function of it, matching Django querysets, which
always return fresh objects — and each `filter` call returns a new
queryset reflecting the additional predicate: its rows are a sublist of
the input rows.  `ContentTypeFilter` and `NullableCharFieldFilter`, whose
whole filtering logic is in the module, narrow unconditionally; the eight
plain multi-value classes inherit the spec-modelled
`MultipleChoiceFilter.filter`, which narrows unconditionally; and the
three delegating overrides (`MultiValueMACAddressFilter`,
`NumericArrayFilter`, `TreeNodeMultipleChoiceFilter`) narrow whenever the
external delegate they hand the queryset to narrows — which the spec's
invariant grants for the external framework. -/
theorem filters_never_mutate [DecidableEq α] [DecidableEq γ]
    (ct : α → ContentTypeRef) (sentinel : String) (field : α → Option String)
    (distinct : Bool) (f : α → γ) (qs : Queryset α) (v : String)
    (mvals : List γ) (mac : List String)
    (delegateM : Queryset α → List String → Except ValidationError (Queryset α))
    (delegateN : Queryset α → PyValue → Queryset α) (pv : PyValue)
    (delegateT : Queryset α → List ExpandedEntry → Queryset α)
    (tv : List TreeEntry) :
    List.Sublist (ContentTypeFilter.filter ct qs v).rows qs.rows
    ∧ List.Sublist
        (NullableCharFieldFilter.filter sentinel field distinct qs v).rows
        qs.rows
    ∧ List.Sublist (MultipleChoiceFilter.filter f qs mvals).rows qs.rows
    ∧ ((∀ r, delegateM qs mac = Except.ok r → List.Sublist r.rows qs.rows) →
        List.Sublist (MultiValueMACAddressFilter.filter delegateM qs mac).rows
          qs.rows)
    ∧ ((∀ w, List.Sublist (delegateN qs w).rows qs.rows) →
        List.Sublist (NumericArrayFilter.filter delegateN qs pv).rows qs.rows)
    ∧ ((∀ w, List.Sublist (delegateT qs w).rows qs.rows) →
        List.Sublist (TreeNodeMultipleChoiceFilter.filter delegateT qs tv).rows
          qs.rows) := by
  refine ⟨?_, ?_, ?_, ?_, ?_, ?_⟩
  · unfold ContentTypeFilter.filter
    by_cases hv : v = ""
    · rw [if_pos hv]
    · rw [if_neg hv]
      split
      · exact List.filter_sublist _
      · exact List.nil_sublist _
  · unfold NullableCharFieldFilter.filter CharFilter.filter
    by_cases hv : v ≠ sentinel
    · rw [if_pos hv]
      by_cases hv2 : v = ""
      · rw [if_pos hv2]
      · rw [if_neg hv2]
        cases distinct with
        | false => exact List.filter_sublist _
        | true =>
          exact List.Sublist.trans (List.filter_sublist _) (List.dedup_sublist _)
    · rw [if_neg hv]
      cases distinct with
      | false => exact List.filter_sublist _
      | true =>
        exact List.Sublist.trans (List.dedup_sublist _) (List.filter_sublist _)
  · unfold MultipleChoiceFilter.filter
    split
    · exact List.Sublist.refl _
    · exact List.filter_sublist _
  · intro h
    unfold MultiValueMACAddressFilter.filter
    split
    · rename_i r hd
      exact h r hd
    · exact List.nil_sublist _
  · intro h
    unfold NumericArrayFilter.filter
    split
    · exact h _
    · exact h _
  · intro h
    unfold TreeNodeMultipleChoiceFilter.filter
    exact h _

/-- Witness for C7 over rows `1, 2` of type `Nat`: every filter class's
`filter` — the delegating ones instantiated with concrete narrowing
delegates — returns a queryset whose rows are a sublist of `[1, 2]`. -/
theorem filters_never_mutate_witness :
    List.Sublist (ContentTypeFilter.filter
      (fun _ : Nat => ContentTypeRef.mk "dcim" "site")
      (Queryset.mk [1, 2]) "dcim.site").rows [1, 2]
    ∧ List.Sublist (NullableCharFieldFilter.filter "null"
        (fun _ : Nat => Option.none) false (Queryset.mk [1, 2]) "null").rows
        [1, 2]
    ∧ List.Sublist (MultipleChoiceFilter.filter (fun n : Nat => n)
        (Queryset.mk [1, 2]) [1]).rows [1, 2]
    ∧ List.Sublist (MultiValueMACAddressFilter.filter
        (fun (qs : Queryset Nat) (_ : List String) => Except.ok qs.none)
        (Queryset.mk [1, 2]) ["aa:bb:cc:dd:ee:ff"]).rows [1, 2]
    ∧ List.Sublist (NumericArrayFilter.filter
        (fun (qs : Queryset Nat) (_ : PyValue) => qs.none)
        (Queryset.mk [1, 2]) (PyValue.int 3)).rows [1, 2]
    ∧ List.Sublist (TreeNodeMultipleChoiceFilter.filter
        (fun (qs : Queryset Nat) (_ : List ExpandedEntry) => qs.none)
        (Queryset.mk [1, 2]) []).rows [1, 2] := by
  have h := filters_never_mutate (fun _ : Nat => ContentTypeRef.mk "dcim" "site")
    "null" (fun _ : Nat => Option.none) false (fun n : Nat => n)
    (Queryset.mk [1, 2]) "dcim.site" [1] ["aa:bb:cc:dd:ee:ff"]
    (fun qs _ => Except.ok qs.none) (fun qs _ => qs.none) (PyValue.int 3)
    (fun qs _ => qs.none) []
  refine ⟨h.1, ?_, h.2.2.1, ?_, ?_, ?_⟩
  · exact (filters_never_mutate (fun _ : Nat => ContentTypeRef.mk "dcim" "site")
      "null" (fun _ : Nat => Option.none) false (fun n : Nat => n)
      (Queryset.mk [1, 2]) "null" [1] ["aa:bb:cc:dd:ee:ff"]
      (fun qs _ => Except.ok qs.none) (fun qs _ => qs.none) (PyValue.int 3)
      (fun qs _ => qs.none) []).2.1
  · exact h.2.2.2.1 (fun r hr => by cases hr; exact List.nil_sublist _)
  · exact h.2.2.2.2.1 (fun w => List.nil_sublist _)
  · exact h.2.2.2.2.2 (fun w => List.nil_sublist _)

/-- C2: the multi-value variant of a form field converts a raw input by
dropping empty entries and coercing each surviving entry with the
original field's `to_python`; each coerced value is validated
individually, so one invalid entry produces a validation error for the
whole parameter; a missing (`None`) or empty input converts to the empty
list. -/
theorem multivalue_clean_spec (F : FormField β) (vs : List String)
    (v : String) :
    MultiValue.clean F Option.none = Except.ok []
    ∧ MultiValue.clean F (Option.some []) = Except.ok []
    ∧ MultiValue.to_python F (Option.some vs)
        = mapExcept F.to_python (vs.filter (fun s => s != ""))
    ∧ (v ∈ vs → v ≠ "" → (∃ e, F.to_python v = Except.error e) →
        ∃ e2, MultiValue.clean F (Option.some vs) = Except.error e2)
    ∧ (∀ bs b, MultiValue.to_python F (Option.some vs) = Except.ok bs →
        b ∈ bs → (∃ e, F.validate b = Except.error e) →
        ∃ e2, MultiValue.clean F (Option.some vs) = Except.error e2) := by
  refine ⟨rfl, rfl, multiValue_to_python_eq_filtered F vs, ?_, ?_⟩
  · intro hmem hne he
    have hvf : v ∈ vs.filter (fun s => s != "") :=
      List.mem_filter.mpr ⟨hmem, by simp [hne]⟩
    rcases mapExcept_error_of_mem F.to_python hvf he with ⟨e2, h2⟩
    refine ⟨e2, ?_⟩
    unfold MultiValue.clean
    rw [multiValue_to_python_eq_filtered F vs, h2]
    rfl
  · intro bs b hok hb he
    rcases multiValue_validate_error_of_mem F hb he with ⟨e2, h2⟩
    refine ⟨e2, ?_⟩
    unfold MultiValue.clean
    rw [hok]
    simp [Bind.bind, Except.bind, h2]

/-- Witness for C2: with an integer-like field accepting only `"1"`, the
input `["1", "x"]` contains the invalid entry `"x"`, and cleaning the
whole parameter fails with a validation error. -/
theorem multivalue_clean_spec_witness :
    ∃ e2, MultiValue.clean
      (FormField.mk
        (fun s => if s = "1" then Except.ok (1 : Int)
                  else Except.error (ValidationError.mk "bad"))
        (fun n => if n = 1 then Except.ok ()
                  else Except.error (ValidationError.mk "inv"))
        (fun _ => Except.ok ()))
      (Option.some ["1", "x"]) = Except.error e2 :=
  (multivalue_clean_spec _ ["1", "x"] "x").2.2.2.1 (by decide) (by decide)
    ⟨ValidationError.mk "bad", rfl⟩

/-- C6: `MultiValueMACAddressFilter.filter` never propagates a
validation error: when the delegated filtering raises `ValidationError`,
the result is the empty queryset `qs.none()`; when it succeeds, its
result is returned unchanged. -/
theorem macAddressFilter_no_propagation
    (delegate : Queryset α → List String → Except ValidationError (Queryset α))
    (qs : Queryset α) (value : List String) :
    (∀ e, delegate qs value = Except.error e →
      MultiValueMACAddressFilter.filter delegate qs value = qs.none)
    ∧ (∀ r, delegate qs value = Except.ok r →
      MultiValueMACAddressFilter.filter delegate qs value = r) := by
  constructor <;> intro x hx <;>
    unfold MultiValueMACAddressFilter.filter <;> rw [hx]

/-- Witness for C6: a delegate that raises on an invalid MAC-address
string yields the empty queryset rather than an error. -/
theorem macAddressFilter_no_propagation_witness :
    MultiValueMACAddressFilter.filter
      (fun (_ : Queryset Nat) (_ : List String) =>
        Except.error (ValidationError.mk "invalid MAC"))
      (Queryset.mk [1]) ["00:11:22:33:44:zz"]
      = Queryset.none (Queryset.mk [1]) :=
  (macAddressFilter_no_propagation _ _ _).1 (ValidationError.mk "invalid MAC")
    rfl

/-- C5: `TreeNodeMultipleChoiceFilter.filter` expands every node entry
of the value list to itself plus all of its transitive descendants
(`get_descendants(include_self=True)`) before delegating — membership in
the expansion coincides with the reflexive-transitive descendant
relation — and a `None` value produces an isnull predicate. -/
theorem treeNodeFilter_descendant_expansion
    (delegate : Queryset α → List ExpandedEntry → Queryset α)
    (qs : Queryset α) (value : List TreeEntry) (fn le : String) :
    TreeNodeMultipleChoiceFilter.filter delegate qs value
      = delegate qs (value.map TreeNodeMultipleChoiceFilter.expandEntry)
    ∧ (∀ t, TreeNodeMultipleChoiceFilter.expandEntry (TreeEntry.node t)
        = ExpandedEntry.nodes t.get_descendants)
    ∧ (∀ t u, u ∈ t.get_descendants ↔ IsDescendant t u)
    ∧ TreeNodeMultipleChoiceFilter.get_filter_predicate fn le Option.none
      = (fn ++ "__isnull", PyValue.bool true) :=
  ⟨rfl, fun _ => rfl, mem_get_descendants, rfl⟩

/-- C10: `TreeNodeMultipleChoiceFilter.filter` expands only non-string
entries; a string entry is passed to the delegated filter unchanged,
without expansion to descendants. -/
theorem treeNodeFilter_strings_passed_through
    (delegate : Queryset α → List ExpandedEntry → Queryset α)
    (qs : Queryset α) (s : String) (value : List TreeEntry) :
    TreeNodeMultipleChoiceFilter.expandEntry (TreeEntry.str s)
      = ExpandedEntry.str s
    ∧ TreeNodeMultipleChoiceFilter.filter delegate qs
        (TreeEntry.str s :: value)
      = delegate qs (ExpandedEntry.str s ::
          value.map TreeNodeMultipleChoiceFilter.expandEntry) :=
  ⟨rfl, rfl⟩

/-- Counterexample to C4: the integer `0` is not the null sentinel, yet
`NumericArrayFilter.filter` bypasses the singleton wrapping for it — a
delegate that distinguishes wrapped from unwrapped operands receives the
bare `0` (returning the unfiltered rows `[7]`) while the wrapped operand
would have produced the empty queryset.  So the wrapping is not bypassed
"exactly when the literal null-sentinel value is supplied". -/
theorem numericArrayFilter_zero_bypasses_wrapping :
    NumericArrayFilter.filter
      (fun (qs : Queryset Nat) v => match v with
        | PyValue.list _ => qs.none
        | _ => qs)
      (Queryset.mk [7]) (PyValue.int 0)
      = Queryset.mk [7]
    ∧ (fun (qs : Queryset Nat) v => match v with
        | PyValue.list _ => qs.none
        | _ => qs) (Queryset.mk [7]) (PyValue.list [PyValue.int 0])
      = Queryset.mk ([] : List Nat)
    ∧ PyValue.int 0 ≠ PyValue.none
    ∧ PyValue.int 0 ≠ PyValue.str "null" := by
  refine ⟨rfl, rfl, ?_, ?_⟩ <;> simp

/-- C4 (amended): `NumericArrayFilter.filter` wraps the value into a
single-element collection before delegating exactly when the value is
truthy; every falsy value — the null `None`, but also the integer `0`
and the empty string — is passed through unwrapped.  A `None` operand of
`MultiValueArrayFilter.get_filter_predicate` yields a `field = None`
predicate, ignoring the configured lookup expression, while any other
operand gets the configured lookup key. -/
theorem arrayFilter_wrapping_and_null_semantics
    (delegate : Queryset α → PyValue → Queryset α) (qs : Queryset α)
    (value : PyValue) (field_name lookup_expr : String) :
    (value.truthy = true →
      NumericArrayFilter.filter delegate qs value
        = delegate qs (PyValue.list [value]))
    ∧ (value.truthy = false →
      NumericArrayFilter.filter delegate qs value = delegate qs value)
    ∧ MultiValueArrayFilter.get_filter_predicate field_name lookup_expr
        PyValue.none
      = (field_name, PyValue.none)
    ∧ (∀ n : Int, MultiValueArrayFilter.get_filter_predicate field_name
        lookup_expr (PyValue.int n)
      = (field_name ++ "__" ++ lookup_expr, PyValue.int n)) := by
  refine ⟨?_, ?_, rfl, fun n => rfl⟩ <;> intro h <;>
    simp [NumericArrayFilter.filter, h]

/-- Witness for the amended C4: the truthy value `5` is wrapped before
delegation, the falsy value `None` is passed through unwrapped. -/
theorem arrayFilter_wrapping_witness :
    NumericArrayFilter.filter (fun (qs : Queryset Nat) _ => qs)
      (Queryset.mk [1]) (PyValue.int 5)
      = (fun (qs : Queryset Nat) _ => qs) (Queryset.mk [1])
          (PyValue.list [PyValue.int 5])
    ∧ NumericArrayFilter.filter (fun (qs : Queryset Nat) _ => qs)
        (Queryset.mk [1]) PyValue.none
      = (fun (qs : Queryset Nat) _ => qs) (Queryset.mk [1]) PyValue.none :=
  ⟨(arrayFilter_wrapping_and_null_semantics _ _ _ "f" "contains").1 rfl,
   (arrayFilter_wrapping_and_null_semantics _ _ _ "f" "contains").2.1 rfl⟩

/-- C9: `NumericArrayFilter.filter` wraps the value into a singleton
list if and only if the value is truthy; the falsy values `None`, `0`
and the empty string reach the delegated filter unwrapped, so filtering
for the integer `0` does not use the wrapped containment form. -/
theorem numericArrayFilter_truthiness
    (delegate : Queryset α → PyValue → Queryset α) (qs : Queryset α) :
    NumericArrayFilter.filter delegate qs PyValue.none
      = delegate qs PyValue.none
    ∧ NumericArrayFilter.filter delegate qs (PyValue.int 0)
      = delegate qs (PyValue.int 0)
    ∧ NumericArrayFilter.filter delegate qs (PyValue.str "")
      = delegate qs (PyValue.str "")
    ∧ (∀ n : Int, n ≠ 0 →
        NumericArrayFilter.filter delegate qs (PyValue.int n)
          = delegate qs (PyValue.list [PyValue.int n])) := by
  refine ⟨rfl, rfl, rfl, fun n hn => ?_⟩
  have h : (PyValue.int n).truthy = true := by simp [PyValue.truthy, hn]
  simp [NumericArrayFilter.filter, h]

/-- Witness for C9: the non-zero integer `5` is wrapped before
delegation. -/
theorem numericArrayFilter_truthiness_witness :
    NumericArrayFilter.filter (fun (qs : Queryset Nat) _ => qs.none)
      (Queryset.mk [2]) (PyValue.int 5)
      = (fun (qs : Queryset Nat) _ => qs.none) (Queryset.mk [2])
          (PyValue.list [PyValue.int 5]) :=
  (numericArrayFilter_truthiness _ _).2.2.2 5 (by decide)
